import Mathlib

/-!
Shallow embedding of the `feed` media-server core
(`apps/media-server/src/index.ts`, `apps/media-server/src/metadata.ts`,
`apps/media-server/src/transcode.ts`).

JavaScript numbers are modelled as `ℚ` (all arithmetic the claims touch is
exact at these magnitudes), byte buffers as `List Nat`, and the external
libraries (`file-type` sniffing, `crypto` SHA-256, `sharp` decoding,
`ffprobe`/`ffmpeg` subprocess outcomes, `fs.statfs`) as explicit oracle
inputs: each is a function of the request bytes or a per-request outcome
value, mirroring exactly how the TypeScript consumes their results.
-/

namespace Feed

/-! ### String helpers (Node `path` module behaviour used by the server) -/

/-- Split of a character list at every occurrence of a separator,
matching `String.prototype.split` with a single-character separator
(empty segments preserved). -/
def splitOnChar (sep : Char) : List Char → List (List Char)
  | [] => [[]]
  | c :: rest =>
      let r := splitOnChar sep rest
      if c = sep then [] :: r
      else
        match r with
        | h :: t => (c :: h) :: t
        | [] => [[c]]

/-- Suffix test on the underlying character lists (the behaviour of
`String.prototype.endsWith` on the paths the server builds). -/
def endsWithStr (s suf : String) : Bool := suf.data.isSuffixOf s.data

/-- Last path segment, as `path.basename` (split on `/`, take the last piece). -/
def pathBasename (s : String) : String :=
  String.mk ((splitOnChar '/' s.data).getLastD s.data)

/-- Extension of the basename including the leading dot, as `path.extname`:
the suffix from the last `.` of the basename; empty when there is no dot or
the only dot is the leading character. -/
def extnameOf (s : String) : String :=
  let b := (pathBasename s).data
  let dotIdxs := (List.range b.length).filter (fun i => b.getD i ' ' = '.')
  match dotIdxs.getLast? with
  | none => ""
  | some 0 => ""
  | some i => String.mk (b.drop i)

/-- Basename with its extension stripped, as
`path.basename(f, path.extname(f))`. -/
def basenameNoExt (s : String) : String :=
  let b := pathBasename s
  b.dropRight (extnameOf b).length

/-- ASCII lower-casing, as `String.prototype.toLowerCase` on the ASCII
range the server deals with. -/
def lowerAscii (s : String) : String :=
  String.mk (s.data.map Char.toLower)

/-! ### Base64 (Node `Buffer.prototype.toString('base64')`) -/

def base64Alphabet : List Char :=
  "ABCDEFGHIJKLMNOPQRSTUVWXYZabcdefghijklmnopqrstuvwxyz0123456789+/".data

def base64Char (n : Nat) : Char := base64Alphabet.getD n 'A'

/-- Standard base64 of a byte list (bytes are `Nat` values below 256). -/
def base64Encode : List Nat → String
  | [] => ""
  | [a] =>
      String.mk [base64Char (a / 4), base64Char (a % 4 * 16), '=', '=']
  | [a, b] =>
      String.mk [base64Char (a / 4), base64Char (a % 4 * 16 + b / 16),
                 base64Char (b % 16 * 4), '=']
  | a :: b :: c :: rest =>
      String.mk [base64Char (a / 4), base64Char (a % 4 * 16 + b / 16),
                 base64Char (b % 16 * 4 + c / 64), base64Char (c % 64)]
        ++ base64Encode rest

/-! ### Allowed MIME types (`index.ts` lines 38-54) -/

def ALLOWED_IMAGE_TYPES : List String :=
  ["image/jpeg", "image/png", "image/webp", "image/gif", "image/avif",
   "image/heic", "image/heif"]

def ALLOWED_VIDEO_TYPES : List String :=
  ["video/mp4", "video/quicktime", "video/webm", "video/x-msvideo",
   "video/x-matroska"]

/-! ### Disk capacity guard (`index.ts` lines 121-148) -/

/-- Fields of a successful `fs.statfs` result that `getDiskSpace` reads. -/
structure FsStats where
  blocks : Nat
  bavail : Nat
  bsize : Nat
deriving Repr, DecidableEq

structure DiskSpace where
  total : ℚ
  free : ℚ
  used : ℚ
deriving Repr, DecidableEq

/-- Translation of `getDiskSpace`: on `statfs` success compute
total/free/used from the block counts; when the query throws (`none`),
degrade to all-zero figures instead of propagating the error. -/
def getDiskSpace (stat : Option FsStats) : DiskSpace :=
  match stat with
  | some s =>
      let total : ℚ := (s.blocks : ℚ) * (s.bsize : ℚ)
      let free : ℚ := (s.bavail : ℚ) * (s.bsize : ℚ)
      { total := total, free := free, used := total - free }
  | none => { total := 0, free := 0, used := 0 }

/-- Translation of `hasEnoughSpace`: true iff
`free - requiredBytes > MIN_FREE_SPACE_MB * 1024 * 1024`. -/
def hasEnoughSpace (minFreeSpaceMB : ℚ) (stat : Option FsStats)
    (requiredBytes : ℚ) : Bool :=
  let free := (getDiskSpace stat).free
  let minFreeBytes := minFreeSpaceMB * 1024 * 1024
  decide (free - requiredBytes > minFreeBytes)

/-! ### GPS / EXIF helpers (`metadata.ts` lines 12-54) -/

/-- Translation of `parseGpsCoordinate`: `undefined` when the hemisphere
reference is missing or empty (JS falsiness) or fewer than three rational
components are present; otherwise `degrees + minutes/60 + seconds/3600`,
negated for the `S` and `W` hemispheres. -/
def parseGpsCoordinate (ref : Option String) (coord : Option (List ℚ)) :
    Option ℚ :=
  match ref, coord with
  | some r, some c =>
      if r = "" then none
      else if c.length < 3 then none
      else
        let degrees := c.getD 0 0
        let minutes := c.getD 1 0
        let seconds := c.getD 2 0
        let decimal := degrees + minutes / 60 + seconds / 3600
        if r = "S" ∨ r = "W" then some (-decimal) else some decimal
  | _, _ => none

/-- Translation of `parseExifDate` for the string case
(`"YYYY:MM:DD HH:MM:SS"` → ISO-ish `"YYYY-MM-DDTHH:MM:SS"`). -/
def parseExifDate (s : String) : Option String :=
  let parts := (splitOnChar ' ' s.data).map String.mk
  let datePart := parts.headD ""
  if datePart = "" then none
  else
    let isoDate :=
      String.mk (datePart.data.map (fun c => if c = ':' then '-' else c))
    match parts.getD 1 "" with
    | "" => some isoDate
    | t => some (isoDate ++ "T" ++ t)

/-- Translation of `formatExposureTime`: `undefined` for a missing or zero
(JS-falsy) exposure; `"{n}s"` at one second or more, else a reduced
`"1/{round(1/n)}"` fraction. -/
def formatExposureTime (exposure : Option ℚ) : Option String :=
  match exposure with
  | none => none
  | some e =>
      if e = 0 then none
      else if e ≥ 1 then some (toString e ++ "s")
      else some ("1/" ++ toString (round (1 / e) : ℤ))

/-! ### Video codec analyzer (`transcode.ts` lines 144-219) -/

def WEB_COMPATIBLE_VIDEO_CODECS : List String := ["h264", "avc1", "avc"]
def WEB_COMPATIBLE_AUDIO_CODECS : List String := ["aac", "mp4a"]

/-- Fields of a successful `ffprobe` run that `analyzeVideoCodecs` reads:
the container `format_name` and the `codec_name` of the first video and
first audio stream (each possibly absent). -/
structure ProbeData where
  formatName : Option String
  videoCodecName : Option String
  audioCodecName : Option String
deriving Repr, DecidableEq

structure VideoCodecInfo where
  container : String
  videoCodec : Option String
  audioCodec : Option String
  isWebCompatible : Bool
deriving Repr, DecidableEq

/-- First comma-separated component of `format_name`, defaulting to
`"unknown"` when the field is missing or the component is empty
(`probe.format?.format_name?.split(',')[0] || 'unknown'`). -/
def containerOf (formatName : Option String) : String :=
  match formatName with
  | none => "unknown"
  | some s =>
      let first := String.mk (s.data.takeWhile (fun c => c ≠ ','))
      if first = "" then "unknown" else first

/-- Lower-cased codec name, `null` when the stream or its name is missing
or empty (`stream?.codec_name?.toLowerCase() || null`). -/
def normCodec (c : Option String) : Option String :=
  match c with
  | none => none
  | some s => if s = "" then none else some (lowerAscii s)

/-- Translation of `analyzeVideoCodecs`: on probe failure (`none`) return
the fixed not-web-compatible record; otherwise web compatibility is the
conjunction of the MP4-container check (`container === 'mov' &&
filePath.endsWith('.mp4') || container === 'mp4'`), the H.264-family video
codec whitelist, and audio-absent-or-AAC-family. -/
def analyzeVideoCodecs (filePath : String) (probe : Option ProbeData) :
    VideoCodecInfo :=
  match probe with
  | none =>
      { container := "unknown", videoCodec := none, audioCodec := none,
        isWebCompatible := false }
  | some p =>
      let container := containerOf p.formatName
      let videoCodec := normCodec p.videoCodecName
      let audioCodec := normCodec p.audioCodecName
      let isMP4Container : Bool :=
        (container = "mov" && endsWithStr filePath ".mp4") || container = "mp4"
      let isH264 : Bool :=
        match videoCodec with
        | some c => decide (c ∈ WEB_COMPATIBLE_VIDEO_CODECS)
        | none => false
      let isAACOrNoAudio : Bool :=
        match audioCodec with
        | none => true
        | some c => decide (c ∈ WEB_COMPATIBLE_AUDIO_CODECS)
      { container := container, videoCodec := videoCodec,
        audioCodec := audioCodec,
        isWebCompatible := isMP4Container && isH264 && isAACOrNoAudio }

/-- Translation of `needsTranscoding`. -/
def needsTranscoding (ci : VideoCodecInfo) : Bool := !ci.isWebCompatible

/-! ### Video transcoder (`transcode.ts` lines 224-296) -/

/-- Outcome of spawning the `ffmpeg` subprocess: either the process ran to
a close event with an exit code (stderr captured along the way), or the
spawn itself errored. -/
inductive SpawnOutcome
  | exited (code : Nat) (stderr : String)
  | spawnError (msg : String)
deriving Repr, DecidableEq

structure TranscodeResult where
  outputPath : String
  transcoded : Bool
  originalDeleted : Bool
  outputMimeType : String
deriving Repr, DecidableEq

/-- Translation of `transcodeVideo`'s promise result: exit code 0 resolves
with `transcoded: true` and a best-effort original deletion
(`originalDeleted` reports whether the `unlink` of the input succeeded);
a nonzero exit rejects with the exit code and captured stderr in the
message; a spawn error rejects with the error message. -/
def transcodeVideo (inputPath outputPath : String) (run : SpawnOutcome)
    (unlinkInputOk : Bool) : Except String TranscodeResult :=
  match run with
  | .exited 0 _ =>
      .ok { outputPath := outputPath, transcoded := true,
            originalDeleted := unlinkInputOk, outputMimeType := "video/mp4" }
  | .exited code stderr =>
      .error ("FFmpeg exited with code " ++ toString code ++ ": " ++ stderr)
  | .spawnError msg =>
      .error ("FFmpeg spawn error: " ++ msg)

/-- Effect of `transcodeVideo` on the set of files in the videos
directory: on success the output exists and the input is removed exactly
when its best-effort `unlink` succeeded; on failure or spawn error any
partial output is deleted, leaving the directory as before. -/
def transcodeVideoFiles (inputPath outputPath : String) (run : SpawnOutcome)
    (unlinkInputOk : Bool) (videos : List String) : List String :=
  match run with
  | .exited 0 _ =>
      let written := if outputPath ∈ videos then videos else videos ++ [outputPath]
      if unlinkInputOk then written.erase inputPath else written
  | _ => videos.erase outputPath

/-! ### Image metadata extractor (`metadata.ts` lines 56-157) -/

/-- Raw EXIF fields as returned by `exif-reader`, restricted to the fields
`extractImageMetadata` reads (date-time values modelled in their string
form). `Option` captures an absent field; JS falsiness of an empty string
or a zero number is handled at the use sites. -/
structure RawExif where
  dateTimeOriginal : Option String
  imageDateTime : Option String
  make : Option String
  model : Option String
  lensMake : Option String
  lensModel : Option String
  focalLength : Option ℚ
  fNumber : Option ℚ
  isoSpeedRatings : Option (List ℚ)
  exposureTime : Option ℚ
  hasGpsInfo : Bool
  gpsLatitudeRef : Option String
  gpsLatitude : Option (List ℚ)
  gpsLongitudeRef : Option String
  gpsLongitude : Option (List ℚ)
  gpsAltitude : Option ℚ
deriving Repr, DecidableEq

/-- JS truthiness of an optional string field. -/
def truthyStr : Option String → Bool
  | none => false
  | some s => s ≠ ""

/-- JS truthiness of an optional numeric field. -/
def truthyNum : Option ℚ → Bool
  | none => false
  | some q => q ≠ 0

/-- JS truthiness of an optional array-or-number ISO field (an array is
always truthy; the scalar case is modelled as a singleton list). -/
def truthyIso : Option (List ℚ) → Bool
  | none => false
  | some _ => true

structure ExifData where
  dateTime : Option String
  cameraMake : Option String
  cameraModel : Option String
  lensMake : Option String
  lensModel : Option String
  focalLength : Option ℚ
  aperture : Option ℚ
  iso : Option ℚ
  exposureTime : Option String
deriving Repr, DecidableEq

structure GeoLocation where
  lat : ℚ
  lon : ℚ
  alt : Option ℚ
deriving Repr, DecidableEq

/-- Whether any of the guarded `result.exif.x = ...` assignments in
`extractImageMetadata` runs; the `exif` sub-object is kept in the result
exactly when at least one key was assigned (`Object.keys(result.exif)`
check before the `delete`). -/
def exifAnyField (raw : RawExif) : Bool :=
  truthyStr raw.dateTimeOriginal || truthyStr raw.imageDateTime ||
  truthyStr raw.make || truthyStr raw.model ||
  truthyStr raw.lensMake || truthyStr raw.lensModel ||
  truthyNum raw.focalLength || truthyNum raw.fNumber ||
  truthyIso raw.isoSpeedRatings || truthyNum raw.exposureTime

/-- Field-by-field translation of the guarded assignments that populate
`result.exif`. -/
def buildExifData (raw : RawExif) : ExifData :=
  { dateTime :=
      if truthyStr raw.dateTimeOriginal then
        parseExifDate (raw.dateTimeOriginal.getD "")
      else if truthyStr raw.imageDateTime then
        parseExifDate (raw.imageDateTime.getD "")
      else none,
    cameraMake := if truthyStr raw.make then raw.make.map String.trim else none,
    cameraModel := if truthyStr raw.model then raw.model.map String.trim else none,
    lensMake := if truthyStr raw.lensMake then raw.lensMake.map String.trim else none,
    lensModel := if truthyStr raw.lensModel then raw.lensModel.map String.trim else none,
    focalLength := if truthyNum raw.focalLength then raw.focalLength else none,
    aperture := if truthyNum raw.fNumber then raw.fNumber else none,
    iso :=
      match raw.isoSpeedRatings with
      | none => none
      | some l => some (l.getD 0 0),
    exposureTime :=
      if truthyNum raw.exposureTime then formatExposureTime raw.exposureTime
      else none }

/-- Translation of the `GPSInfo` block: the `location` sub-object is
produced exactly when the section exists and both the latitude and the
longitude convert; altitude is copied when present. -/
def buildLocation (raw : RawExif) : Option GeoLocation :=
  if raw.hasGpsInfo then
    match parseGpsCoordinate raw.gpsLatitudeRef raw.gpsLatitude,
          parseGpsCoordinate raw.gpsLongitudeRef raw.gpsLongitude with
    | some la, some lo => some { lat := la, lon := lo, alt := raw.gpsAltitude }
    | _, _ => none
  else none

/-- Result of `sharp(buffer).metadata()` restricted to the fields the
extractor reads. `width`/`height` use 0 for both `undefined` and a literal
zero, matching the `!metadata.width` falsiness test. The EXIF segment is
doubly optional: the outer layer is presence of `metadata.exif`, the inner
layer is whether `exif-reader` parses it (`none` = it threw). -/
structure SharpMeta where
  width : Nat
  height : Nat
  exifSegment : Option (Option RawExif)
deriving Repr, DecidableEq

/-- The decode-level view `sharp` provides of an image buffer: `meta` is
`none` when `sharp` itself rejects the bytes (metadata unreadable), and
`lqipResult` is the outcome of the awaited
`resize(20,20).jpeg(quality:50).blur(2).toBuffer()` re-encode used for the
placeholder — a promise that can itself reject even after `metadata()`
succeeded with valid dimensions (truncated pixel data, pixel-limit
excess), in which case the rejection propagates out of the extractor. -/
structure ImageInput where
  meta : Option SharpMeta
  lqipResult : Except String (List Nat)
deriving Repr

structure ImageMetadata where
  width : Nat
  height : Nat
  aspectRatio : ℚ
  lqip : String
  exif : Option ExifData
  location : Option GeoLocation
deriving Repr, DecidableEq

/-- Rounding to four decimal places, as `Number(x.toFixed(4))`. -/
def roundTo4 (q : ℚ) : ℚ := (round (q * 10000) : ℤ) / 10000

/-- Translation of `extractImageMetadata`: a hard error when the pixel
dimensions cannot be determined (decode failure or a falsy width/height),
and also when the awaited LQIP re-encode rejects — that `await` sits
outside any try/catch, so the rejection propagates; otherwise dimensions,
the 4-decimal aspect ratio, the base64 LQIP data URI, and the
EXIF/location sub-objects, where a missing EXIF segment or an
`exif-reader` throw (caught in the source) simply yields a result without
them. -/
def extractImageMetadata (img : ImageInput) : Except String ImageMetadata :=
  match img.meta with
  | none => .error "Input buffer could not be decoded"
  | some m =>
      if m.width = 0 ∨ m.height = 0 then
        .error "Could not determine image dimensions"
      else
        match img.lqipResult with
        | .error msg => .error msg
        | .ok lqipBuffer =>
            let lqip := "data:image/jpeg;base64," ++ base64Encode lqipBuffer
            let exifPart : Option ExifData :=
              match m.exifSegment with
              | some (some raw) =>
                  if exifAnyField raw then some (buildExifData raw) else none
              | _ => none
            let locPart : Option GeoLocation :=
              match m.exifSegment with
              | some (some raw) => buildLocation raw
              | _ => none
            .ok { width := m.width, height := m.height,
                  aspectRatio := roundTo4 ((m.width : ℚ) / (m.height : ℚ)),
                  lqip := lqip, exif := exifPart, location := locPart }

/-! ### Duplicate index and server state (`index.ts` lines 63-118) -/

inductive MediaType
  | image
  | video
deriving Repr, DecidableEq

/-- Translation of the `HashEntry` interface. -/
structure HashEntry where
  hash : String
  filename : String
  type : MediaType
  url : String
deriving Repr, DecidableEq

/-- Files-on-disk plus duplicate-index state of the running service:
filename lists for the three storage subdirectories, the in-memory
`hashIndex` map (as an insertion-ordered association list keyed by hash),
and the entry list persisted in `.hash-index.json`. -/
structure ServerState where
  images : List String
  videos : List String
  thumbnails : List String
  hashIndex : List HashEntry
  persistedIndex : List HashEntry
deriving Repr, DecidableEq

/-- Idempotent file write: creating a file that already exists leaves the
directory's name set unchanged (content overwrite). -/
def fsWrite (dir : List String) (f : String) : List String :=
  if f ∈ dir then dir else dir ++ [f]

/-- Translation of `findDuplicate` (`hashIndex.get(hash)`). -/
def findDuplicate (idx : List HashEntry) (h : String) : Option HashEntry :=
  idx.find? (fun e => e.hash = h)

/-- `Map.prototype.set` on the association list: overwrite in place when
the hash is present, else append. -/
def mapSet (idx : List HashEntry) (e : HashEntry) : List HashEntry :=
  if idx.any (fun x => x.hash = e.hash) then
    idx.map (fun x => if x.hash = e.hash then e else x)
  else idx ++ [e]

/-- Translation of `addToHashIndex`: set the entry in the in-memory map,
then persist the whole table (`saveHashIndex`). -/
def addToHashIndex (st : ServerState) (e : HashEntry) : ServerState :=
  let idx := mapSet st.hashIndex e
  { st with hashIndex := idx, persistedIndex := idx }

/-- The loop body of `removeFromHashIndex`: delete the first entry whose
filename matches, leave the rest untouched. -/
def removeFirstByFilename : List HashEntry → String → List HashEntry
  | [], _ => []
  | e :: rest, f =>
      if e.filename = f then rest else e :: removeFirstByFilename rest f

/-- Translation of `removeFromHashIndex`: scan out the first filename
match, then persist the whole table. -/
def removeFromHashIndex (st : ServerState) (filename : String) : ServerState :=
  let idx := removeFirstByFilename st.hashIndex filename
  { st with hashIndex := idx, persistedIndex := idx }

/-! ### Upload pipeline (`index.ts` lines 320-527) -/

/-- Result of `fileTypeFromBuffer`: content-sniffed MIME type and
extension, or `none` when the byte stream is not a recognised format. -/
structure DetectedType where
  mime : String
  ext : String
deriving Repr, DecidableEq

/-- Configuration plus the deterministic external functions of the upload
path: the public base URL, the parsed `MIN_FREE_SPACE_MB`, the `file-type`
sniffer (a pure function of the bytes), and the SHA-256 hex digest
(`calculateHash`, a pure function of the bytes). -/
structure Env where
  publicUrl : String
  minFreeSpaceMB : ℚ
  sniff : List Nat → Option DetectedType
  hashHex : List Nat → String

/-- Per-request nondeterministic outcomes consumed by the upload handler,
in the order the source awaits them: the generated `nanoid(12)`, the
`statfs` result for the capacity check, `sharp`'s view of the buffer on
the image path, the `ffprobe` outcome on the temp file, the `ffmpeg` run
outcome, whether the best-effort post-transcode `unlink` of the original
succeeds, and whether poster-thumbnail extraction succeeds. -/
structure UploadOracle where
  freshId : String
  statfsResult : Option FsStats
  imageInput : ImageInput
  probe : Option ProbeData
  transcodeRun : SpawnOutcome
  unlinkOriginalOk : Bool
  thumbOk : Bool
deriving Repr

/-- The multipart `file` field of an upload request as multer delivers it:
buffer, client-supplied name, client-declared MIME type. `size` is the
buffer's byte length. -/
structure UploadRequest where
  content : List Nat
  originalname : String
  clientMimeType : String
deriving Repr, DecidableEq

def UploadRequest.size (req : UploadRequest) : Nat := req.content.length

/-- Fields of the JSON upload response that the claims mention. `duplicate`
is false for a fresh ingestion (the key is only set on the duplicate
branch); `transcoded`/`originalMimeType` are only set on the video
branches. -/
structure UploadResponse where
  duplicate : Bool
  id : String
  url : String
  originalFilename : String
  mimeType : String
  size : Nat
  type : MediaType
  transcoded : Option Bool
  originalMimeType : Option String
deriving Repr, DecidableEq

/-- Terminal statuses of one `/upload` request: 200 with a JSON body, 400
unsupported type, 507 insufficient storage, or the catch-all 500 from a
thrown error. -/
inductive UploadOutcome
  | ok (resp : UploadResponse)
  | unsupportedType (detected : String)
  | insufficientStorage
  | uploadFailed (msg : String)
deriving Repr, DecidableEq

/-- The server-reported MIME type of an upload:
`detectedType?.mime || clientMimeType` — the content-sniffed type when the
sniffer recognises the bytes, else the client-declared one. -/
def actualMimeTypeOf (env : Env) (req : UploadRequest) : String :=
  match env.sniff req.content with
  | some d => d.mime
  | none => req.clientMimeType

/-- The storage extension of an upload: dot plus the sniffed extension
when the sniffer recognises the bytes, else the lower-cased extension of
the client-supplied filename. -/
def uploadExtOf (env : Env) (req : UploadRequest) : String :=
  match env.sniff req.content with
  | some d => "." ++ d.ext
  | none => lowerAscii (extnameOf req.originalname)

/-- The accept/reject decision of type validation: the media kind when the
actual MIME type is allowed, `none` for a 400 rejection. -/
def acceptDecision (env : Env) (req : UploadRequest) : Option MediaType :=
  let mime := actualMimeTypeOf env req
  if mime ∈ ALLOWED_IMAGE_TYPES then some .image
  else if mime ∈ ALLOWED_VIDEO_TYPES then some .video
  else none

/-- Temp filename of the video path before analysis/transcoding. -/
def tempVideoFilename (id ext : String) : String := id ++ "_temp" ++ ext

/-- The state the controller holds after `fs.writeFile(tempPath, buffer)`
on the video path, while it awaits codec analysis and (possibly)
transcoding. -/
def writeTempVideo (st : ServerState) (tempFilename : String) : ServerState :=
  { st with videos := fsWrite st.videos tempFilename }

/-- Modelled from the spec: `extractVideoThumbnail` (imported by
`index.ts` but its implementation is not under `src/`) extracts a poster
frame of the given stored video into the thumbnails directory and returns
a thumbnail URL plus blurred LQIP; per the spec's dedup contract
("re-running lightweight metadata extraction against the existing file …
no new file is written") the poster's name is derived deterministically
from the video's filename, so re-extraction overwrites rather than
creates. -/
def thumbFor (videoFilename : String) : String :=
  "thumb_" ++ basenameNoExt videoFilename ++ ".jpg"

/-- Effect of `extractVideoThumbnail` on the thumbnails directory: writes
the poster for the given video when extraction succeeds, does nothing when
it fails (the caller treats a null result as "no thumbnail"). -/
def writeThumbnail (st : ServerState) (videoFilename : String)
    (thumbOk : Bool) : ServerState :=
  if thumbOk then
    { st with thumbnails := fsWrite st.thumbnails (thumbFor videoFilename) }
  else st

/-- Translation of the duplicate branch (`index.ts` lines 355-397): log,
re-extract metadata from the already-stored file (failures caught), for a
video also re-extract the poster thumbnail, and answer 200 with
`duplicate: true`, the stored entry's URL, and the id recovered from the
stored filename. No write to `images/`/`videos/` and no index mutation
occurs. -/
def processDuplicate (o : UploadOracle) (st : ServerState)
    (req : UploadRequest) (existing : HashEntry) (actualMimeType : String) :
    UploadOutcome × ServerState :=
  let st' :=
    if existing.type = .video then writeThumbnail st existing.filename o.thumbOk
    else st
  (.ok { duplicate := true,
         id := basenameNoExt existing.filename,
         url := existing.url,
         originalFilename := req.originalname,
         mimeType := actualMimeType,
         size := req.size,
         type := existing.type,
         transcoded := none,
         originalMimeType := none }, st')

/-- Translation of the image branch (`index.ts` lines 419-428 plus the
shared persist/index/respond tail): metadata is extracted from the buffer
first — a throw there reaches the outer catch as a 500 before anything is
written — then the file is written as `{id}{ext}` under `images/`, the
index entry is upserted, and the 200 response is built. -/
def processImageBranch (env : Env) (o : UploadOracle) (st : ServerState)
    (req : UploadRequest) (contentHash actualMimeType ext : String) :
    UploadOutcome × ServerState :=
  match extractImageMetadata o.imageInput with
  | .error msg => (.uploadFailed msg, st)
  | .ok _meta =>
      let finalFilename := o.freshId ++ ext
      let st1 := { st with images := fsWrite st.images finalFilename }
      let url := env.publicUrl ++ "/files/images/" ++ finalFilename
      let entry : HashEntry :=
        { hash := contentHash, filename := finalFilename, type := .image,
          url := url }
      let st2 := addToHashIndex st1 entry
      (.ok { duplicate := false, id := o.freshId, url := url,
             originalFilename := req.originalname,
             mimeType := actualMimeType, size := req.size, type := .image,
             transcoded := none, originalMimeType := none }, st2)

/-- Translation of the video branch (`index.ts` lines 429-497 plus the
shared tail): write the buffer to `{id}_temp{ext}`, probe the codecs, and
either transcode to `{id}.mp4` (500 with temp-file cleanup when `ffmpeg`
fails) or rename the temp file to `{id}{ext}`; then extract the poster
thumbnail, upsert the index entry and respond, reporting `transcoded` and,
when transcoded, `video/mp4` with the original MIME type preserved. -/
def processVideoBranch (env : Env) (o : UploadOracle) (st : ServerState)
    (req : UploadRequest) (contentHash actualMimeType ext : String) :
    UploadOutcome × ServerState :=
  let tempFilename := tempVideoFilename o.freshId ext
  let stTemp := writeTempVideo st tempFilename
  let codecInfo := analyzeVideoCodecs tempFilename o.probe
  if needsTranscoding codecInfo then
    let finalFilename := o.freshId ++ ".mp4"
    match transcodeVideo tempFilename finalFilename o.transcodeRun
        o.unlinkOriginalOk with
    | .error msg =>
        let videos' := transcodeVideoFiles tempFilename finalFilename
          o.transcodeRun o.unlinkOriginalOk stTemp.videos
        (.uploadFailed msg, { stTemp with videos := videos'.erase tempFilename })
    | .ok _tr =>
        let videos' := transcodeVideoFiles tempFilename finalFilename
          o.transcodeRun o.unlinkOriginalOk stTemp.videos
        let stDone := writeThumbnail { stTemp with videos := videos' }
          finalFilename o.thumbOk
        let finalMimeType := "video/mp4"
        let url := env.publicUrl ++ "/files/videos/" ++ finalFilename
        let entry : HashEntry :=
          { hash := contentHash, filename := finalFilename, type := .video,
            url := url }
        let st2 := addToHashIndex stDone entry
        (.ok { duplicate := false, id := o.freshId, url := url,
               originalFilename := req.originalname,
               mimeType := finalMimeType, size := req.size, type := .video,
               transcoded := some true,
               originalMimeType := some actualMimeType }, st2)
  else
    let finalFilename := o.freshId ++ ext
    let stRenamed :=
      { stTemp with
          videos := fsWrite (stTemp.videos.erase tempFilename) finalFilename }
    let stDone := writeThumbnail stRenamed finalFilename o.thumbOk
    let url := env.publicUrl ++ "/files/videos/" ++ finalFilename
    let entry : HashEntry :=
      { hash := contentHash, filename := finalFilename, type := .video,
        url := url }
    let st2 := addToHashIndex stDone entry
    (.ok { duplicate := false, id := o.freshId, url := url,
           originalFilename := req.originalname,
           mimeType := actualMimeType, size := req.size, type := .video,
           transcoded := some false,
           originalMimeType := none }, st2)

/-- Translation of the `/upload` handler (`index.ts` lines 320-527):
sniff-based type validation, duplicate short-circuit on the content hash,
capacity check with the 2.5× video multiplier, then the image or video
processing branch. -/
def processUpload (env : Env) (o : UploadOracle) (st : ServerState)
    (req : UploadRequest) : UploadOutcome × ServerState :=
  let actualMimeType := actualMimeTypeOf env req
  match acceptDecision env req with
  | none => (.unsupportedType actualMimeType, st)
  | some kind =>
      let contentHash := env.hashHex req.content
      match findDuplicate st.hashIndex contentHash with
      | some existing => processDuplicate o st req existing actualMimeType
      | none =>
          let spaceMultiplier : ℚ := if kind = .video then 5 / 2 else 1
          if hasEnoughSpace env.minFreeSpaceMB o.statfsResult
              ((req.size : ℚ) * spaceMultiplier) then
            let ext := uploadExtOf env req
            match kind with
            | .image =>
                processImageBranch env o st req contentHash actualMimeType ext
            | .video =>
                processVideoBranch env o st req contentHash actualMimeType ext
          else (.insufficientStorage, st)

/-! ### Static file serving and deletion (`index.ts` lines 692-733) -/

/-- Whether `GET /files/<p>` answers with a file: `express.static` over
the upload root serves exactly the files that exist under it (the
`.hash-index.json` dotfile is ignored by the static middleware's dotfile
default and the subdirectories hold no dotfiles). -/
def servedViaFiles (st : ServerState) (p : String) : Bool :=
  st.images.any (fun f => p = "images/" ++ f) ||
  st.videos.any (fun f => p = "videos/" ++ f) ||
  st.thumbnails.any (fun f => p = "thumbnails/" ++ f)

/-- Terminal statuses of one `DELETE /files/:type/:filename` request. -/
inductive DeleteOutcome
  | ok (deleted : String)
  | invalidType
  | notFound
deriving Repr, DecidableEq

/-- Translation of the delete handler: validate the `:type` segment,
sanitize the filename with `path.basename`, `unlink` the file — a missing
file throws `ENOENT`, answered as 404 before any index code runs — and
only after a successful unlink remove the matching index entry and
persist. -/
def deleteFile (st : ServerState) (ty filename : String) :
    DeleteOutcome × ServerState :=
  if ty = "images" ∨ ty = "videos" then
    let sanitizedFilename := pathBasename filename
    let dir := if ty = "images" then st.images else st.videos
    if sanitizedFilename ∈ dir then
      let dir' := dir.erase sanitizedFilename
      let st1 :=
        if ty = "images" then { st with images := dir' }
        else { st with videos := dir' }
      (.ok filename, removeFromHashIndex st1 sanitizedFilename)
    else (.notFound, st)
  else (.invalidType, st)

/-! ### Outcome observers and concrete fixtures used by the theorems -/

def UploadOutcome.isOk : UploadOutcome → Bool
  | .ok _ => true
  | _ => false

def emptyState : ServerState :=
  { images := [], videos := [], thumbnails := [], hashIndex := [],
    persistedIndex := [] }

/-- A filesystem with ample free space (≈512 GiB free). -/
def bigDisk : FsStats := { blocks := 2 ^ 30, bavail := 2 ^ 30, bsize := 512 }

/-- A decodable 1920×1080 image with no EXIF segment. -/
def okImageInput : ImageInput :=
  { meta := some { width := 1920, height := 1080, exifSegment := none },
    lqipResult := .ok [255, 216, 255] }

/-- A buffer whose header parses to 100×50 but whose pixel decode fails
during the awaited LQIP re-encode (e.g. truncated JPEG pixel data under
sharp's defaults). -/
def truncatedJpegInput : ImageInput :=
  { meta := some { width := 100, height := 50, exifSegment := none },
    lqipResult := .error "VipsJpeg: Premature end of JPEG file" }

/-- A buffer whose header parses to 1920×1080 but whose decode is refused
at the pixel stage (pixel-limit excess), failing the LQIP re-encode. -/
def oversizedImageInput : ImageInput :=
  { meta := some { width := 1920, height := 1080, exifSegment := none },
    lqipResult := .error "Input image exceeds pixel limit" }

/-- Sniffer that recognises nothing (bytes `file-type` cannot identify,
e.g. plain text). -/
def sniffNothing : List Nat → Option DetectedType := fun _ => none

/-- Sniffer behaviour on a QuickTime movie buffer. -/
def sniffQuicktime : List Nat → Option DetectedType :=
  fun _ => some { mime := "video/quicktime", ext := "mov" }

/-- Sniffer behaviour on a JPEG buffer. -/
def sniffJpeg : List Nat → Option DetectedType :=
  fun _ => some { mime := "image/jpeg", ext := "jpg" }

def hashCafe : List Nat → String := fun _ => "cafebabe"

def envNoSniff : Env :=
  { publicUrl := "http://localhost:3001", minFreeSpaceMB := 500,
    sniff := sniffNothing, hashHex := hashCafe }

def envQuicktime : Env :=
  { publicUrl := "http://localhost:3001", minFreeSpaceMB := 500,
    sniff := sniffQuicktime, hashHex := hashCafe }

def envJpeg : Env :=
  { publicUrl := "http://localhost:3001", minFreeSpaceMB := 500,
    sniff := sniffJpeg, hashHex := hashCafe }

def oracleBase : UploadOracle :=
  { freshId := "abcdefghijkl", statfsResult := some bigDisk,
    imageInput := okImageInput, probe := none,
    transcodeRun := .exited 0 "", unlinkOriginalOk := true, thumbOk := true }

/-- Oracle for a video upload whose transcode succeeds but whose
best-effort deletion of the temp original fails. -/
def oracleUnlinkFail : UploadOracle :=
  { oracleBase with unlinkOriginalOk := false }

/-- Identical bytes declared as JPEG by the client. -/
def reqDeclaredJpeg : UploadRequest :=
  { content := [1, 2, 3], originalname := "a.jpg",
    clientMimeType := "image/jpeg" }

/-- The same bytes declared as plain text by the client. -/
def reqDeclaredText : UploadRequest :=
  { content := [1, 2, 3], originalname := "b.bin",
    clientMimeType := "text/plain" }

def reqMovie : UploadRequest :=
  { content := [9, 9, 9], originalname := "clip.mov",
    clientMimeType := "video/quicktime" }

/-- The same movie bytes under a different client name and declared type. -/
def reqMovieAlias : UploadRequest :=
  { content := [9, 9, 9], originalname := "whatever.txt",
    clientMimeType := "application/octet-stream" }

/-- Probe result of an H.264/AAC MP4. -/
def probeH264 : ProbeData :=
  { formatName := some "mp4", videoCodecName := some "h264",
    audioCodecName := some "aac" }

def entryCafe : HashEntry :=
  { hash := "cafebabe", filename := "ex123abc.jpg", type := .image,
    url := "http://localhost:3001/files/images/ex123abc.jpg" }

/-- State after a first ingestion of the `cafebabe` content. -/
def stateWithCafe : ServerState :=
  { images := ["ex123abc.jpg"], videos := [], thumbnails := [],
    hashIndex := [entryCafe], persistedIndex := [entryCafe] }

/-! ## Theorems -/

/-- C3: for every `requiredBytes`, `hasEnoughSpace(requiredBytes)` returns
true iff `free - requiredBytes` strictly exceeds the
`MIN_FREE_SPACE_MB * 1024 * 1024` floor; and when the filesystem
statistics query fails, the free figure degrades to zero and the check
returns false instead of throwing. -/
theorem hasEnoughSpace_spec (minFreeSpaceMB requiredBytes : ℚ)
    (stat : Option FsStats) (hm : 0 ≤ minFreeSpaceMB)
    (hr : 0 ≤ requiredBytes) :
    (hasEnoughSpace minFreeSpaceMB stat requiredBytes = true ↔
      (getDiskSpace stat).free - requiredBytes >
        minFreeSpaceMB * 1024 * 1024) ∧
    (getDiskSpace none).free = 0 ∧
    hasEnoughSpace minFreeSpaceMB none requiredBytes = false := by
  refine ⟨by simp [hasEnoughSpace], rfl, ?_⟩
  have hfloor : (0 : ℚ) ≤ minFreeSpaceMB * 1024 * 1024 := by positivity
  simp only [hasEnoughSpace, getDiskSpace, decide_eq_false_iff_not, not_lt]
  linarith

/-- Witness for C3 at concrete inputs: a failed statfs query rejects a
100-byte upload under the default 500 MB floor. -/
theorem hasEnoughSpace_spec_witness :
    hasEnoughSpace 500 none 100 = false :=
  (hasEnoughSpace_spec 500 100 none (by norm_num) (by norm_num)).2.2

/-- C9: a degrees/minutes/seconds triple with a non-empty hemisphere
reference converts to `degrees + minutes/60 + seconds/3600`, negated
exactly when the reference is `S` or `W`. -/
theorem parseGpsCoordinate_formula (r : String) (d m s : ℚ)
    (rest : List ℚ) (hr : r ≠ "") :
    parseGpsCoordinate (some r) (some (d :: m :: s :: rest)) =
      some (if r = "S" ∨ r = "W" then -(d + m / 60 + s / 3600)
            else d + m / 60 + s / 3600) := by
  simp only [parseGpsCoordinate]
  rw [if_neg hr, if_neg (by simp : ¬ (d :: m :: s :: rest).length < 3)]
  have h0 : (d :: m :: s :: rest).getD 0 0 = d := rfl
  have h1 : (d :: m :: s :: rest).getD 1 0 = m := rfl
  have h2 : (d :: m :: s :: rest).getD 2 0 = s := rfl
  rw [h0, h1, h2]
  split <;> rfl

/-- Witness for C9 at the fixture 59°55'27"N, 10°45'30"E: the decimal
coordinates are exactly 215727/3600 ≈ 59.9242 and 38730/3600 ≈ 10.7583. -/
theorem parseGpsCoordinate_formula_witness :
    parseGpsCoordinate (some "N") (some [59, 55, 27]) =
      some (215727 / 3600) ∧
    parseGpsCoordinate (some "E") (some [10, 45, 30]) =
      some (38730 / 3600) ∧
    |(215727 / 3600 : ℚ) - 59.9242| < 1 / 10000 ∧
    |(38730 / 3600 : ℚ) - 10.7583| < 1 / 10000 := by
  refine ⟨?_, ?_, by rw [abs_lt]; norm_num, by rw [abs_lt]; norm_num⟩
  · rw [parseGpsCoordinate_formula "N" 59 55 27 [] (by decide)]
    rw [if_neg (by decide)]
    norm_num
  · rw [parseGpsCoordinate_formula "E" 10 45 30 [] (by decide)]
    rw [if_neg (by decide)]
    norm_num

/-- Idempotent writes preserve directory-listing uniqueness. -/
theorem fsWrite_nodup {dir : List String} {f : String} (h : dir.Nodup) :
    (fsWrite dir f).Nodup := by
  unfold fsWrite
  split
  · exact h
  · next hnm =>
      simp only [List.nodup_append, h, List.nodup_cons, List.not_mem_nil,
        not_false_iff, List.nodup_nil, and_true, true_and]
      intro a ha hb
      simp only [List.mem_singleton] at hb
      exact hnm (hb ▸ ha)

/-- C4: `analyzeVideoCodecs` classifies a probed video web-compatible
exactly when the container check (`mov` with an `.mp4` path, or `mp4`)
passes, the video codec is in the H.264-family whitelist, and the audio
codec is absent or in the AAC-family whitelist; probe failure yields the
fixed not-compatible record; `needsTranscoding` is its negation; and in
the upload video branch a web-compatible video is answered with
`transcoded: false` while an incompatible one (with `ffmpeg` succeeding)
is answered with `transcoded: true` and MIME type `video/mp4`. -/
theorem analyzeVideoCodecs_spec :
    (∀ (filePath : String) (p : ProbeData),
      (analyzeVideoCodecs filePath (some p)).isWebCompatible = true ↔
        ((containerOf p.formatName = "mov" ∧ endsWithStr filePath ".mp4" = true) ∨
          containerOf p.formatName = "mp4") ∧
        (∃ c, normCodec p.videoCodecName = some c ∧
          c ∈ WEB_COMPATIBLE_VIDEO_CODECS) ∧
        (normCodec p.audioCodecName = none ∨
          ∃ c, normCodec p.audioCodecName = some c ∧
            c ∈ WEB_COMPATIBLE_AUDIO_CODECS)) ∧
    (∀ filePath, analyzeVideoCodecs filePath none =
      { container := "unknown", videoCodec := none, audioCodec := none,
        isWebCompatible := false }) ∧
    (∀ ci, needsTranscoding ci = !ci.isWebCompatible) ∧
    (∀ (env : Env) (o : UploadOracle) (st : ServerState)
      (req : UploadRequest) (contentHash actualMimeType ext : String),
      (analyzeVideoCodecs (tempVideoFilename o.freshId ext)
          o.probe).isWebCompatible = true →
      ∃ resp,
        (processVideoBranch env o st req contentHash actualMimeType ext).1 =
          .ok resp ∧
        resp.transcoded = some false ∧ resp.mimeType = actualMimeType) ∧
    (∀ (env : Env) (o : UploadOracle) (st : ServerState)
      (req : UploadRequest) (contentHash actualMimeType ext stderr : String),
      (analyzeVideoCodecs (tempVideoFilename o.freshId ext)
          o.probe).isWebCompatible = false →
      o.transcodeRun = .exited 0 stderr →
      ∃ resp,
        (processVideoBranch env o st req contentHash actualMimeType ext).1 =
          .ok resp ∧
        resp.transcoded = some true ∧ resp.mimeType = "video/mp4" ∧
        resp.originalMimeType = some actualMimeType) := by
  refine ⟨?_, ?_, fun _ => rfl, ?_, ?_⟩
  · intro filePath p
    cases hv : normCodec p.videoCodecName with
    | none =>
        have hL : (analyzeVideoCodecs filePath (some p)).isWebCompatible =
            false := by
          simp only [analyzeVideoCodecs, hv, Bool.and_false, Bool.false_and,
            Bool.and_eq_false_imp]
        rw [hL]
        constructor
        · intro h
          exact absurd h (by simp)
        · rintro ⟨-, ⟨c, hc, -⟩, -⟩
          cases hc
    | some cv =>
        cases ha : normCodec p.audioCodecName with
        | none =>
            have hL : (analyzeVideoCodecs filePath (some p)).isWebCompatible =
                (((decide (containerOf p.formatName = "mov") &&
                    endsWithStr filePath ".mp4") ||
                  decide (containerOf p.formatName = "mp4")) &&
                  decide (cv ∈ WEB_COMPATIBLE_VIDEO_CODECS)) := by
              simp only [analyzeVideoCodecs, hv, ha, Bool.and_true]
            rw [hL]
            simp only [Bool.and_eq_true, Bool.or_eq_true, decide_eq_true_eq]
            constructor
            · rintro ⟨hc, hmem⟩
              exact ⟨hc, ⟨cv, rfl, hmem⟩, Or.inl trivial⟩
            · rintro ⟨hc, ⟨c, hcEq, hmem⟩, -⟩
              injection hcEq with he
              subst he
              exact ⟨hc, hmem⟩
        | some ca =>
            have hL : (analyzeVideoCodecs filePath (some p)).isWebCompatible =
                (((decide (containerOf p.formatName = "mov") &&
                    endsWithStr filePath ".mp4") ||
                  decide (containerOf p.formatName = "mp4")) &&
                  (decide (cv ∈ WEB_COMPATIBLE_VIDEO_CODECS) &&
                    decide (ca ∈ WEB_COMPATIBLE_AUDIO_CODECS))) := by
              simp only [analyzeVideoCodecs, hv, ha, Bool.and_assoc]
            rw [hL]
            simp only [Bool.and_eq_true, Bool.or_eq_true, decide_eq_true_eq]
            constructor
            · rintro ⟨hc, hv264, haud⟩
              exact ⟨hc, ⟨cv, rfl, hv264⟩, Or.inr ⟨ca, rfl, haud⟩⟩
            · rintro ⟨hc, ⟨c, hcEq, hmem⟩, haud⟩
              injection hcEq with he
              subst he
              refine ⟨hc, hmem, ?_⟩
              cases haud with
              | inl h => cases h
              | inr h =>
                  obtain ⟨c', hc', hmem'⟩ := h
                  injection hc' with he'
                  subst he'
                  exact hmem'
  · intro filePath; rfl
  · intro env o st req contentHash actualMimeType ext hcompat
    have hneeds : needsTranscoding
        (analyzeVideoCodecs (tempVideoFilename o.freshId ext) o.probe) =
          false := by
      simp [needsTranscoding, hcompat]
    simp only [processVideoBranch, hneeds, Bool.false_eq_true, if_false]
    exact ⟨_, rfl, rfl, rfl⟩
  · intro env o st req contentHash actualMimeType ext stderr hincompat hrun
    have hneeds : needsTranscoding
        (analyzeVideoCodecs (tempVideoFilename o.freshId ext) o.probe) =
          true := by
      simp [needsTranscoding, hincompat]
    simp only [processVideoBranch, hneeds, if_true, hrun]
    exact ⟨_, rfl, rfl, rfl, rfl⟩

/-- Witness for C4 at concrete inputs: an H.264/AAC stream probed out of
an `mp4` container is classified web-compatible, and a probe failure is
classified not compatible. -/
theorem analyzeVideoCodecs_spec_witness :
    (analyzeVideoCodecs "x.mp4" (some probeH264)).isWebCompatible = true ∧
    (analyzeVideoCodecs "x.mov" none).isWebCompatible = false := by
  constructor
  · exact (analyzeVideoCodecs_spec.1 "x.mp4" probeH264).mpr
      ⟨Or.inr (by decide), ⟨"h264", by decide, by decide⟩,
        Or.inr ⟨"aac", by decide, by decide⟩⟩
  · rw [analyzeVideoCodecs_spec.2.1 "x.mov"]

/-- C5: `transcodeVideo` resolves on exit code 0 with `transcoded: true`
and a best-effort original deletion reported in `originalDeleted`; on a
nonzero exit or a spawn error it rejects with the captured stderr (resp.
the spawn error message) in the error message and any partial output file
is deleted; and in the upload video branch such a rejection aborts the
request with a 500 carrying that message, the controller additionally
removing the temp input while leaving the duplicate index untouched. -/
theorem transcodeVideo_spec :
    (∀ (inputPath outputPath stderr : String) (unlinkOk : Bool),
      transcodeVideo inputPath outputPath (.exited 0 stderr) unlinkOk =
        .ok { outputPath := outputPath, transcoded := true,
              originalDeleted := unlinkOk, outputMimeType := "video/mp4" }) ∧
    (∀ (inputPath outputPath stderr : String) (code : Nat) (unlinkOk : Bool),
      code ≠ 0 →
      transcodeVideo inputPath outputPath (.exited code stderr) unlinkOk =
        .error ("FFmpeg exited with code " ++ toString code ++ ": " ++ stderr)) ∧
    (∀ (inputPath outputPath msg : String) (unlinkOk : Bool),
      transcodeVideo inputPath outputPath (.spawnError msg) unlinkOk =
        .error ("FFmpeg spawn error: " ++ msg)) ∧
    (∀ (inputPath outputPath : String) (run : SpawnOutcome) (unlinkOk : Bool)
      (videos : List String), videos.Nodup →
      (∀ stderr, run ≠ .exited 0 stderr) →
      outputPath ∉ transcodeVideoFiles inputPath outputPath run unlinkOk videos) ∧
    (∀ (env : Env) (o : UploadOracle) (st : ServerState)
      (req : UploadRequest) (contentHash actualMimeType ext m : String),
      st.videos.Nodup →
      needsTranscoding (analyzeVideoCodecs (tempVideoFilename o.freshId ext)
        o.probe) = true →
      transcodeVideo (tempVideoFilename o.freshId ext) (o.freshId ++ ".mp4")
        o.transcodeRun o.unlinkOriginalOk = .error m →
      (processVideoBranch env o st req contentHash actualMimeType ext).1 =
        .uploadFailed m ∧
      tempVideoFilename o.freshId ext ∉
        (processVideoBranch env o st req contentHash actualMimeType ext).2.videos ∧
      (processVideoBranch env o st req contentHash actualMimeType ext).2.hashIndex =
        st.hashIndex ∧
      (processVideoBranch env o st req contentHash actualMimeType ext).2.persistedIndex =
        st.persistedIndex) := by
  refine ⟨fun _ _ _ _ => rfl, ?_, fun _ _ _ _ => rfl, ?_, ?_⟩
  · intro inputPath outputPath stderr code unlinkOk hcode
    cases code with
    | zero => exact absurd rfl hcode
    | succ n => rfl
  · intro inputPath outputPath run unlinkOk videos hnd hrun
    cases run with
    | exited code stderr =>
        cases code with
        | zero => exact absurd rfl (hrun stderr)
        | succ n => exact hnd.not_mem_erase
    | spawnError msg => exact hnd.not_mem_erase
  · intro env o st req contentHash actualMimeType ext m hnd hneeds herr
    have hfiles : transcodeVideoFiles (tempVideoFilename o.freshId ext)
        (o.freshId ++ ".mp4") o.transcodeRun o.unlinkOriginalOk
        (fsWrite st.videos (tempVideoFilename o.freshId ext)) =
        (fsWrite st.videos (tempVideoFilename o.freshId ext)).erase
          (o.freshId ++ ".mp4") := by
      cases hr : o.transcodeRun with
      | exited code stderr =>
          cases code with
          | zero =>
              rw [hr] at herr
              exact absurd herr (by simp [transcodeVideo])
          | succ n => rfl
      | spawnError msg => rfl
    simp only [processVideoBranch, hneeds, if_true, herr, writeTempVideo, hfiles]
    refine ⟨trivial, ?_, trivial, trivial⟩
    exact fun hmem =>
      ((fsWrite_nodup hnd).erase _).not_mem_erase hmem

/-- Witness for C5 at concrete inputs: exit code 1 with stderr `"boom"`
rejects with the stderr in the message, cleans the partial output, and
aborts a concrete video upload with a 500 while the temp file and index
stay clean. -/
theorem transcodeVideo_spec_witness :
    transcodeVideo "a_temp.mov" "a.mp4" (.exited 1 "boom") true =
      .error "FFmpeg exited with code 1: boom" ∧
    "a.mp4" ∉ transcodeVideoFiles "a_temp.mov" "a.mp4" (.exited 1 "boom")
      true ["a.mp4", "b.mp4"] ∧
    (processVideoBranch envQuicktime
      { oracleBase with transcodeRun := .exited 1 "boom" } emptyState
      reqMovie "cafebabe" "video/quicktime" ".mov").1 =
      .uploadFailed "FFmpeg exited with code 1: boom" := by
  refine ⟨?_, ?_, ?_⟩
  · exact transcodeVideo_spec.2.1 "a_temp.mov" "a.mp4" "boom" 1 true
      (by decide)
  · exact transcodeVideo_spec.2.2.2.1 "a_temp.mov" "a.mp4" (.exited 1 "boom")
      true ["a.mp4", "b.mp4"] (by decide) (fun stderr h => by
        simp at h)
  · exact (transcodeVideo_spec.2.2.2.2 envQuicktime
      { oracleBase with transcodeRun := .exited 1 "boom" } emptyState
      reqMovie "cafebabe" "video/quicktime" ".mov"
      "FFmpeg exited with code 1: boom" List.nodup_nil rfl rfl).1

/-- C7 counterexample: a buffer whose header parses to 100×50 — both
dimensions determinable — still makes `extractImageMetadata` throw when
the awaited LQIP re-encode rejects (that `await` sits outside any
try/catch), so "throws iff dimensions undeterminable" fails. -/
theorem extractImageMetadata_throws_despite_dims :
    truncatedJpegInput.meta =
      some { width := 100, height := 50, exifSegment := none } ∧
    extractImageMetadata truncatedJpegInput =
      .error "VipsJpeg: Premature end of JPEG file" :=
  ⟨rfl, rfl⟩

/-- C7 (amended): `extractImageMetadata` throws exactly when the pixel
dimensions cannot be determined (undecodable buffer or falsy
width/height) or the awaited LQIP re-encode of the decoded image fails; a
missing EXIF segment or one `exif-reader` cannot parse never throws — the
result then lacks the `exif` and `location` sub-objects — and `location`
is present exactly when the GPS section exists and both the latitude and
the longitude convert. -/
theorem extractImageMetadata_failure_spec :
    (∀ img : ImageInput,
      (∃ msg, extractImageMetadata img = .error msg) ↔
        (img.meta = none ∨
          ∃ m, img.meta = some m ∧ (m.width = 0 ∨ m.height = 0 ∨
            ∃ e, img.lqipResult = .error e))) ∧
    (∀ (img : ImageInput) (m : SharpMeta) (bs : List Nat),
      img.meta = some m → m.width ≠ 0 → m.height ≠ 0 →
      img.lqipResult = .ok bs →
      (m.exifSegment = none ∨ m.exifSegment = some none) →
      ∃ r, extractImageMetadata img = .ok r ∧
        r.exif = none ∧ r.location = none) ∧
    (∀ (img : ImageInput) (m : SharpMeta) (raw : RawExif)
      (r : ImageMetadata), img.meta = some m →
      m.exifSegment = some (some raw) →
      extractImageMetadata img = .ok r →
      (r.location.isSome = true ↔ raw.hasGpsInfo = true ∧
        (parseGpsCoordinate raw.gpsLatitudeRef raw.gpsLatitude).isSome = true ∧
        (parseGpsCoordinate raw.gpsLongitudeRef raw.gpsLongitude).isSome = true)) := by
  refine ⟨?_, ?_, ?_⟩
  · intro img
    cases hm : img.meta with
    | none =>
        constructor
        · intro _
          exact Or.inl rfl
        · intro _
          exact ⟨"Input buffer could not be decoded",
            by simp only [extractImageMetadata, hm]⟩
    | some m =>
        constructor
        · rintro ⟨msg, hmsg⟩
          simp only [extractImageMetadata, hm] at hmsg
          by_cases hwh : m.width = 0 ∨ m.height = 0
          · refine Or.inr ⟨m, rfl, ?_⟩
            rcases hwh with h | h
            · exact Or.inl h
            · exact Or.inr (Or.inl h)
          · rw [if_neg hwh] at hmsg
            cases hlq : img.lqipResult with
            | error e => exact Or.inr ⟨m, rfl, Or.inr (Or.inr ⟨e, rfl⟩)⟩
            | ok bs =>
                simp only [hlq] at hmsg
                exact Except.noConfusion hmsg
        · rintro (hmNone | ⟨m', hm', hdisj⟩)
          · exact Option.noConfusion hmNone
          · have he : m = m' := by injection hm'
            subst he
            rcases hdisj with hw | hh | ⟨e, hlq⟩
            · exact ⟨"Could not determine image dimensions",
                by simp only [extractImageMetadata, hm]; rw [if_pos (Or.inl hw)]⟩
            · exact ⟨"Could not determine image dimensions",
                by simp only [extractImageMetadata, hm]; rw [if_pos (Or.inr hh)]⟩
            · by_cases hwh : m.width = 0 ∨ m.height = 0
              · exact ⟨"Could not determine image dimensions",
                  by simp only [extractImageMetadata, hm]; rw [if_pos hwh]⟩
              · refine ⟨e, ?_⟩
                simp only [extractImageMetadata, hm]
                rw [if_neg hwh]
                simp only [hlq]
  · intro img m bs hm hw hh hlq hseg
    have hwh : ¬ (m.width = 0 ∨ m.height = 0) := by
      rintro (h | h)
      exacts [hw h, hh h]
    refine ⟨{ width := m.width, height := m.height,
              aspectRatio := roundTo4 ((m.width : ℚ) / (m.height : ℚ)),
              lqip := "data:image/jpeg;base64," ++ base64Encode bs,
              exif := none, location := none }, ?_, rfl, rfl⟩
    simp only [extractImageMetadata, hm, hlq]
    rw [if_neg hwh]
    cases hseg with
    | inl h => rw [h]
    | inr h => rw [h]
  · intro img m raw r hm hseg hr
    simp only [extractImageMetadata, hm, hseg] at hr
    by_cases hwh : m.width = 0 ∨ m.height = 0
    · rw [if_pos hwh] at hr
      cases hr
    · rw [if_neg hwh] at hr
      cases hlq : img.lqipResult with
      | error e =>
          simp only [hlq] at hr
          exact Except.noConfusion hr
      | ok bs =>
          simp only [hlq] at hr
          injection hr with h
          subst h
          show (buildLocation raw).isSome = true ↔ _
          unfold buildLocation
          by_cases hg : raw.hasGpsInfo
          · rw [if_pos hg]
            cases hla : parseGpsCoordinate raw.gpsLatitudeRef raw.gpsLatitude with
            | none => simp [hg]
            | some la =>
                cases hlo : parseGpsCoordinate raw.gpsLongitudeRef
                    raw.gpsLongitude with
                | none => simp [hg]
                | some lo => simp [hg]
          · rw [if_neg hg]
            simp [hg]

/-- Witness for the amended C7 at a concrete input: a decodable 100×50
image with a successful re-encode whose EXIF segment exists but fails to
parse yields a result with `exif` and `location` absent rather than an
error. -/
theorem extractImageMetadata_failure_spec_witness :
    ∃ r, extractImageMetadata
        { meta := some { width := 100, height := 50, exifSegment := some none },
          lqipResult := .ok [7, 7, 7] } = .ok r ∧
      r.exif = none ∧ r.location = none :=
  extractImageMetadata_failure_spec.2.1 _
    { width := 100, height := 50, exifSegment := some none } [7, 7, 7] rfl
    (by decide) (by decide) rfl (Or.inr rfl)

/-- C8 counterexample: a buffer whose header parses to 1920×1080 — fully
determinable dimensions — yields no metadata at all when the decode is
refused at the LQIP re-encode stage: the extraction throws instead of
returning an `aspectRatio` and `lqip`. -/
theorem extractImageMetadata_aspect_lqip_counterexample :
    oversizedImageInput.meta =
      some { width := 1920, height := 1080, exifSegment := none } ∧
    extractImageMetadata oversizedImageInput =
      .error "Input image exceeds pixel limit" :=
  ⟨rfl, rfl⟩

/-- C8 (amended): for every image with determinable dimensions whose
LQIP re-encode succeeds, the extractor returns `aspectRatio` equal to
width/height rounded to 4 decimal places (hence within 1/20000 of the
true ratio) and a non-empty `lqip` that is the base64 data URI of the
low-quality re-encoding; when the re-encode fails, the extraction throws
instead of returning. -/
theorem extractImageMetadata_aspect_lqip (img : ImageInput) (m : SharpMeta)
    (bs : List Nat) (hm : img.meta = some m) (hw : m.width ≠ 0)
    (hh : m.height ≠ 0) (hlq : img.lqipResult = .ok bs) :
    ∃ r, extractImageMetadata img = .ok r ∧
      r.width = m.width ∧ r.height = m.height ∧
      r.aspectRatio = roundTo4 ((m.width : ℚ) / (m.height : ℚ)) ∧
      |r.aspectRatio - (m.width : ℚ) / (m.height : ℚ)| ≤ 1 / 20000 ∧
      r.lqip = "data:image/jpeg;base64," ++ base64Encode bs ∧
      r.lqip ≠ "" := by
  have hwh : ¬ (m.width = 0 ∨ m.height = 0) := by
    rintro (h | h)
    exacts [hw h, hh h]
  refine ⟨{ width := m.width, height := m.height,
            aspectRatio := roundTo4 ((m.width : ℚ) / (m.height : ℚ)),
            lqip := "data:image/jpeg;base64," ++ base64Encode bs,
            exif := match m.exifSegment with
              | some (some raw) =>
                  if exifAnyField raw then some (buildExifData raw) else none
              | _ => none,
            location := match m.exifSegment with
              | some (some raw) => buildLocation raw
              | _ => none }, ?_, rfl, rfl, rfl, ?_, rfl, ?_⟩
  · simp only [extractImageMetadata, hm, hlq]
    rw [if_neg hwh]
  · show |roundTo4 ((m.width : ℚ) / (m.height : ℚ)) - _| ≤ 1 / 20000
    set q : ℚ := (m.width : ℚ) / (m.height : ℚ) with hq
    have h1 : |q * 10000 - (round (q * 10000) : ℚ)| ≤ 1 / 2 :=
      abs_sub_round (q * 10000)
    have h2 : roundTo4 q - q = ((round (q * 10000) : ℚ) - q * 10000) / 10000 := by
      unfold roundTo4
      ring
    rw [h2, abs_div]
    have h10 : |(10000 : ℚ)| = 10000 := by norm_num
    rw [h10]
    have h3 : |(round (q * 10000) : ℚ) - q * 10000| ≤ 1 / 2 := by
      rw [abs_sub_comm]
      exact h1
    calc |(round (q * 10000) : ℚ) - q * 10000| / 10000
        ≤ (1 / 2) / 10000 := (div_le_div_iff_of_pos_right (by norm_num)).mpr h3
      _ = 1 / 20000 := by norm_num
  · intro hcontra
    have hd := congrArg String.data hcontra
    rw [String.data_append] at hd
    cases hd

/-- Witness for the amended C8 at a concrete input: a 1920×1080 image
with a successful re-encode yields `aspectRatio ≈ 1.7778` (the 4-decimal
rounding of 16/9) and a non-empty base64 LQIP. -/
theorem extractImageMetadata_aspect_lqip_witness :
    ∃ r, extractImageMetadata okImageInput = .ok r ∧
      r.width = 1920 ∧ r.height = 1080 ∧
      r.aspectRatio = roundTo4 (((1920 : ℕ) : ℚ) / ((1080 : ℕ) : ℚ)) ∧
      |r.aspectRatio - ((1920 : ℕ) : ℚ) / ((1080 : ℕ) : ℚ)| ≤ 1 / 20000 ∧
      r.lqip = "data:image/jpeg;base64," ++
        base64Encode [255, 216, 255] ∧
      r.lqip ≠ "" :=
  extractImageMetadata_aspect_lqip okImageInput
    { width := 1920, height := 1080, exifSegment := none } [255, 216, 255]
    rfl (by decide) (by decide) rfl

/-- The ample-free-space fixture admits any request needing at most 1000
bytes under the default 500 MB floor. -/
theorem hasEnoughSpace_bigDisk {r : ℚ} (h0 : 0 ≤ r) (hr : r ≤ 1000) :
    hasEnoughSpace 500 (some bigDisk) r = true := by
  simp only [hasEnoughSpace, getDiskSpace, bigDisk, decide_eq_true_eq]
  push_cast
  norm_num
  linarith

/-- C2 counterexample: the same unrecognisable bytes (`file-type` sniffs
nothing) declared as `image/jpeg` with name `a.jpg` are accepted with
MIME `image/jpeg` and extension `.jpg`, while declared as `text/plain`
with name `b.bin` they are rejected — the accept/reject decision, the
reported MIME type and the storage extension all follow the client-
declared values when sniffing fails. -/
theorem upload_client_fallback_counterexample :
    reqDeclaredJpeg.content = reqDeclaredText.content ∧
    (processUpload envNoSniff oracleBase emptyState reqDeclaredJpeg).1.isOk =
      true ∧
    (processUpload envNoSniff oracleBase emptyState reqDeclaredText).1 =
      .unsupportedType "text/plain" ∧
    actualMimeTypeOf envNoSniff reqDeclaredJpeg = "image/jpeg" ∧
    actualMimeTypeOf envNoSniff reqDeclaredText = "text/plain" ∧
    uploadExtOf envNoSniff reqDeclaredJpeg = ".jpg" ∧
    uploadExtOf envNoSniff reqDeclaredText = ".bin" := by
  refine ⟨rfl, ?_, by decide, by decide, by decide, by decide, by decide⟩
  have hmul :
      (if MediaType.image = MediaType.video then (5 : ℚ) / 2 else 1) = 1 :=
    rfl
  have hsp : hasEnoughSpace envNoSniff.minFreeSpaceMB
      oracleBase.statfsResult ((reqDeclaredJpeg.size : ℚ) * 1) = true :=
    hasEnoughSpace_bigDisk (by positivity)
      (by norm_num [UploadRequest.size, reqDeclaredJpeg])
  simp only [processUpload,
    show acceptDecision envNoSniff reqDeclaredJpeg = some .image from by decide,
    show findDuplicate emptyState.hashIndex
      (envNoSniff.hashHex reqDeclaredJpeg.content) = none from by decide]
  rw [hmul, if_pos hsp]
  rfl

/-- C2 (amended): whenever the content sniffer recognises the byte
stream, the accept/reject decision, the reported MIME type and the
storage extension are functions of the bytes alone — identical bytes
under different client-declared MIME types and filenames validate
identically; the client values are consulted only as the fallback when
sniffing fails. -/
theorem upload_sniffed_type_uniform (env : Env) (req₁ req₂ : UploadRequest)
    (d : DetectedType) (h₁ : env.sniff req₁.content = some d)
    (hc : req₂.content = req₁.content) :
    actualMimeTypeOf env req₁ = d.mime ∧
    actualMimeTypeOf env req₂ = actualMimeTypeOf env req₁ ∧
    uploadExtOf env req₁ = "." ++ d.ext ∧
    uploadExtOf env req₂ = uploadExtOf env req₁ ∧
    acceptDecision env req₂ = acceptDecision env req₁ := by
  have h₂ : env.sniff req₂.content = some d := by rw [hc]; exact h₁
  simp [actualMimeTypeOf, uploadExtOf, acceptDecision, h₁, h₂]

/-- Witness for the amended C2 at concrete inputs: the same movie bytes
under two different client names/declared types sniff, validate and
extend identically. -/
theorem upload_sniffed_type_uniform_witness :
    actualMimeTypeOf envQuicktime reqMovie = "video/quicktime" ∧
    actualMimeTypeOf envQuicktime reqMovieAlias =
      actualMimeTypeOf envQuicktime reqMovie ∧
    uploadExtOf envQuicktime reqMovie = "." ++ "mov" ∧
    uploadExtOf envQuicktime reqMovieAlias =
      uploadExtOf envQuicktime reqMovie ∧
    acceptDecision envQuicktime reqMovieAlias =
      acceptDecision envQuicktime reqMovie :=
  upload_sniffed_type_uniform envQuicktime reqMovie reqMovieAlias
    { mime := "video/quicktime", ext := "mov" } rfl rfl

/-- C1: when the content hash of an upload is already in the duplicate
index, the handler answers 200 with `duplicate: true`, the URL stored in
the existing entry and the id recovered from the stored filename, and the
entire server state — stored files, in-memory index and persisted index —
is left unchanged, so a second ingestion of identical bytes creates no
second StoredFile and no new index entry. (For a video duplicate the
poster re-extraction overwrites the poster the first ingestion created,
hence the thumbnail-present hypothesis.) -/
theorem upload_duplicate_hit (env : Env) (o : UploadOracle)
    (st : ServerState) (req : UploadRequest) (kind : MediaType)
    (e : HashEntry) (hacc : acceptDecision env req = some kind)
    (hdup : findDuplicate st.hashIndex (env.hashHex req.content) = some e)
    (hthumb : e.type = .video → o.thumbOk = true →
      thumbFor e.filename ∈ st.thumbnails) :
    (∃ resp, (processUpload env o st req).1 = .ok resp ∧
      resp.duplicate = true ∧ resp.url = e.url ∧
      resp.id = basenameNoExt e.filename ∧ resp.type = e.type ∧
      resp.transcoded = none) ∧
    (processUpload env o st req).2 = st := by
  constructor
  · simp only [processUpload, hacc, hdup]
    exact ⟨_, rfl, rfl, rfl, rfl, rfl, rfl⟩
  · simp only [processUpload, hacc, hdup, processDuplicate]
    by_cases he : e.type = .video
    · rw [if_pos he]
      unfold writeThumbnail
      by_cases ht : o.thumbOk = true
      · rw [if_pos ht]
        unfold fsWrite
        rw [if_pos (hthumb he ht)]
      · rw [if_neg ht]
    · rw [if_neg he]

/-- Witness for C1 at a concrete input: re-uploading the already-indexed
`cafebabe` content answers `duplicate: true` with the stored URL and
leaves the state untouched. -/
theorem upload_duplicate_hit_witness :
    (∃ resp,
      (processUpload envJpeg oracleBase stateWithCafe reqDeclaredJpeg).1 =
        .ok resp ∧
      resp.duplicate = true ∧ resp.url = entryCafe.url ∧
      resp.id = basenameNoExt entryCafe.filename ∧
      resp.type = entryCafe.type ∧ resp.transcoded = none) ∧
    (processUpload envJpeg oracleBase stateWithCafe reqDeclaredJpeg).2 =
      stateWithCafe :=
  upload_duplicate_hit envJpeg oracleBase stateWithCafe reqDeclaredJpeg
    .image entryCafe (by decide) (by decide)
    (fun hv _ => absurd hv (by decide))

/-- Any two distinct `/files` subdirectory URLs built from the images and
videos roots differ. -/
theorem filesUrl_images_ne_videos (base f t : String) :
    base ++ "/files/images/" ++ f ≠ base ++ "/files/videos/" ++ t := by
  intro h
  have hd := congrArg String.data h
  simp only [String.data_append, List.append_assoc] at hd
  have h2 := (List.append_inj hd rfl).2
  have h3 := (List.append_inj h2 rfl).1
  exact absurd h3 (by decide)

/-- A `{id}.mp4` video URL never names the `{id}_temp{ext}` temp file. -/
theorem videoUrl_mp4_ne_temp (base id ext : String) :
    base ++ "/files/videos/" ++ (id ++ ".mp4") ≠
      base ++ "/files/videos/" ++ tempVideoFilename id ext := by
  intro h
  have hd := congrArg String.data h
  simp only [String.data_append, tempVideoFilename, List.append_assoc] at hd
  have h2 := (List.append_inj hd rfl).2
  have h3 := (List.append_inj h2 rfl).2
  have h4 := (List.append_inj h3 rfl).2
  rw [List.cons_append] at h4
  have h6 := congrArg (fun l => l.headD ' ') h4
  simp only [List.headD_cons] at h6
  exact absurd h6 (by decide)

/-- A `{id}{ext}` video URL never names the `{id}_temp{ext}` temp file. -/
theorem videoUrl_ext_ne_temp (base id ext : String) :
    base ++ "/files/videos/" ++ (id ++ ext) ≠
      base ++ "/files/videos/" ++ tempVideoFilename id ext := by
  intro h
  have hd := congrArg String.data h
  simp only [String.data_append, tempVideoFilename, List.append_assoc] at hd
  have h2 := (List.append_inj hd rfl).2
  have h3 := (List.append_inj h2 rfl).2
  have h4 := (List.append_inj h3 rfl).2
  have hlen := congrArg List.length h4
  rw [List.length_append] at hlen
  have h5 : (['_', 't', 'e', 'm', 'p'] : List Char).length = 5 := rfl
  rw [h5] at hlen
  omega

/-- C6 counterexample: a successful transcoded upload whose best-effort
deletion of the temp original fails leaves `videos/abcdefghijkl_temp.mov`
on disk, and a request for that path through the public `/files` static
route serves it — temporary files are reachable via `/files` while they
exist. -/
theorem tempfile_served_counterexample :
    (processUpload envQuicktime oracleUnlinkFail emptyState reqMovie).1.isOk =
      true ∧
    servedViaFiles
      (processUpload envQuicktime oracleUnlinkFail emptyState reqMovie).2
      ("videos/" ++ tempVideoFilename "abcdefghijkl" ".mov") = true := by
  have hsp : hasEnoughSpace envQuicktime.minFreeSpaceMB
      oracleUnlinkFail.statfsResult ((reqMovie.size : ℚ) * (5 / 2)) = true :=
    hasEnoughSpace_bigDisk (by positivity)
      (by norm_num [UploadRequest.size, reqMovie])
  constructor
  · simp only [processUpload,
      show acceptDecision envQuicktime reqMovie = some .video from by decide,
      show findDuplicate emptyState.hashIndex
        (envQuicktime.hashHex reqMovie.content) = none from by decide,
      if_true]
    rw [if_pos hsp]
    rfl
  · simp only [processUpload,
      show acceptDecision envQuicktime reqMovie = some .video from by decide,
      show findDuplicate emptyState.hashIndex
        (envQuicktime.hashHex reqMovie.content) = none from by decide,
      if_true]
    rw [if_pos hsp]
    decide

/-- C6 (amended): temporary video files live under the `/files`-served
storage root, so they are fetchable at their `{id}_temp{ext}` path while
they exist; what holds is that no URL returned by a fresh (non-duplicate)
upload ever names that upload's temp file. -/
theorem upload_response_url_not_temp (env : Env) (o : UploadOracle)
    (st : ServerState) (req : UploadRequest) (resp : UploadResponse)
    (h : (processUpload env o st req).1 = .ok resp)
    (hd : resp.duplicate = false) :
    resp.url ≠ env.publicUrl ++ "/files/videos/" ++
      tempVideoFilename o.freshId (uploadExtOf env req) := by
  simp only [processUpload] at h
  cases hacc : acceptDecision env req with
  | none =>
      simp only [hacc] at h
      exact UploadOutcome.noConfusion h
  | some kind =>
      simp only [hacc] at h
      cases hdup : findDuplicate st.hashIndex (env.hashHex req.content) with
      | some e =>
          simp only [hdup, processDuplicate] at h
          injection h with h
          subst h
          exact Bool.noConfusion hd
      | none =>
          simp only [hdup] at h
          by_cases hsp : hasEnoughSpace env.minFreeSpaceMB o.statfsResult
              ((req.size : ℚ) * if kind = .video then 5 / 2 else 1) = true
          · rw [if_pos hsp] at h
            cases kind with
            | image =>
                simp only [processImageBranch] at h
                cases hex : extractImageMetadata o.imageInput with
                | error msg =>
                    simp only [hex] at h
                    exact UploadOutcome.noConfusion h
                | ok meta =>
                    simp only [hex] at h
                    injection h with h
                    subst h
                    exact filesUrl_images_ne_videos env.publicUrl _ _
            | video =>
                simp only [processVideoBranch] at h
                by_cases hneeds : needsTranscoding (analyzeVideoCodecs
                    (tempVideoFilename o.freshId (uploadExtOf env req))
                    o.probe) = true
                · rw [if_pos hneeds] at h
                  cases htr : transcodeVideo
                      (tempVideoFilename o.freshId (uploadExtOf env req))
                      (o.freshId ++ ".mp4") o.transcodeRun
                      o.unlinkOriginalOk with
                  | error msg =>
                      simp only [htr] at h
                      exact UploadOutcome.noConfusion h
                  | ok tr =>
                      simp only [htr] at h
                      injection h with h
                      subst h
                      exact videoUrl_mp4_ne_temp env.publicUrl o.freshId _
                · rw [if_neg hneeds] at h
                  injection h with h
                  subst h
                  exact videoUrl_ext_ne_temp env.publicUrl o.freshId _
          · rw [if_neg hsp] at h
            exact UploadOutcome.noConfusion h

/-- Witness for the amended C6 at a concrete input: the URL returned for
the transcoded movie upload is the `.mp4` one, not the temp path. -/
theorem upload_response_url_not_temp_witness :
    (processUpload envQuicktime oracleUnlinkFail emptyState reqMovie).1 =
      .ok { duplicate := false, id := "abcdefghijkl",
            url := "http://localhost:3001/files/videos/abcdefghijkl.mp4",
            originalFilename := "clip.mov",
            mimeType := "video/mp4", size := 3, type := .video,
            transcoded := some true,
            originalMimeType := some "video/quicktime" } ∧
    ("http://localhost:3001/files/videos/abcdefghijkl.mp4" : String) ≠
      envQuicktime.publicUrl ++ "/files/videos/" ++
        tempVideoFilename "abcdefghijkl" (uploadExtOf envQuicktime reqMovie) := by
  have hsp : hasEnoughSpace envQuicktime.minFreeSpaceMB
      oracleUnlinkFail.statfsResult ((reqMovie.size : ℚ) * (5 / 2)) = true :=
    hasEnoughSpace_bigDisk (by positivity)
      (by norm_num [UploadRequest.size, reqMovie])
  have h1 : (processUpload envQuicktime oracleUnlinkFail emptyState
      reqMovie).1 =
      .ok { duplicate := false, id := "abcdefghijkl",
            url := "http://localhost:3001/files/videos/abcdefghijkl.mp4",
            originalFilename := "clip.mov",
            mimeType := "video/mp4", size := 3, type := .video,
            transcoded := some true,
            originalMimeType := some "video/quicktime" } := by
    simp only [processUpload,
      show acceptDecision envQuicktime reqMovie = some .video from by decide,
      show findDuplicate emptyState.hashIndex
        (envQuicktime.hashHex reqMovie.content) = none from by decide,
      if_true]
    rw [if_pos hsp]
    decide
  exact ⟨h1, upload_response_url_not_temp envQuicktime oracleUnlinkFail
    emptyState reqMovie _ h1 rfl⟩

/-- C10: when the unlink of a `DELETE /files/:type/:filename` target
fails because the file does not exist, the handler answers 404 and the
whole state — in particular the in-memory duplicate index and its
persisted table — is left completely unchanged, since index removal runs
only after a successful unlink. -/
theorem delete_missing_file_preserves_index (st : ServerState)
    (ty filename : String) (hty : ty = "images" ∨ ty = "videos")
    (hmiss : pathBasename filename ∉
      (if ty = "images" then st.images else st.videos)) :
    (deleteFile st ty filename).1 = .notFound ∧
    (deleteFile st ty filename).2 = st ∧
    (deleteFile st ty filename).2.hashIndex = st.hashIndex ∧
    (deleteFile st ty filename).2.persistedIndex = st.persistedIndex := by
  simp only [deleteFile]
  rw [if_pos hty, if_neg hmiss]
  exact ⟨rfl, rfl, rfl, rfl⟩

/-- Witness for C10 at a concrete input: deleting a missing filename from
a state with one indexed image answers 404 and leaves the index file
untouched. -/
theorem delete_missing_file_preserves_index_witness :
    (deleteFile stateWithCafe "images" "missing.jpg").1 = .notFound ∧
    (deleteFile stateWithCafe "images" "missing.jpg").2 = stateWithCafe ∧
    (deleteFile stateWithCafe "images" "missing.jpg").2.hashIndex =
      stateWithCafe.hashIndex ∧
    (deleteFile stateWithCafe "images" "missing.jpg").2.persistedIndex =
      stateWithCafe.persistedIndex :=
  delete_missing_file_preserves_index stateWithCafe "images" "missing.jpg"
    (Or.inl rfl) (by decide)

end Feed
